import Mathlib

/-!
# Pre-defined contracts of the omniledger service

A shallow embedding of `omniledger/service/contracts.go`: the well-known keys,
the loaders `LoadConfigFromColl` / `LoadDarcFromColl` and the two contract
handlers `ContractConfig` and `ContractDarc`.

Conventions of the embedding.

* A Go `[]byte` is a list of bytes; a Go `string` is an immutable byte
  sequence and is embedded as the same type, so that `string(buf)` and
  `[]byte(s)` are the identity and `+` is list append.  `go "darc"` is the
  byte sequence of a string literal.
* A Go `error` is the message it carries; `nil` is `none`.
* A nil slice is the empty list.
* A handler returns the Go triple `(sc, c, err)` as a structure, so that the
  bare returns through the named results of `ContractConfig` are visible.
* What the file imports from packages that are not part of it (the darc
  codec, `Verify`, the rule evaluation, the protobuf codec of `Config`), and
  the verified credentials of the caller that the layer above supplies, is
  collected in the structure `Externals`; the general theorems hold for all
  of its values, and `sampleExternals` is one value, used to run the handlers
  on concrete inputs.
-/

namespace Omniledger

/-! ## Bytes and strings -/

abbrev Byte := Fin 256

abbrev Bytes := List Byte

abbrev GoString := List Byte

abbrev GoError := GoString

/-- The byte sequence (UTF-8) of a string literal of the source. -/
def go (s : String) : GoString :=
  s.toList.flatMap (fun c => (String.utf8EncodeChar c).map (fun u => u.val))

/-! ## `encoding/binary`: `Uvarint` and `Varint` -/

/-- The loop of `binary.Uvarint`: `i` is the index of the byte `b`, `x` the
accumulator (a `uint64`) and `s` the shift.  A byte below `0x80` ends the
number, unless it comes too late (overflow: value `0`, negative count); if
the buffer ends first the result is `(0, 0)`. -/
def uvarintLoop : Bytes → Nat → Nat → Nat → Nat × Int
  | [], _, _, _ => (0, 0)
  | b :: rest, i, x, s =>
    if b.val < 0x80 then
      if i > 9 ∨ (i = 9 ∧ b.val > 1) then
        (0, -((i : Int) + 1))
      else
        (x ||| ((b.val <<< s) % 2 ^ 64), (i : Int) + 1)
    else
      uvarintLoop rest (i + 1) (x ||| (((b.val &&& 0x7f) <<< s) % 2 ^ 64)) (s + 7)

/-- Go `binary.Uvarint(buf)`: the decoded `uint64` and the number of bytes
read (`0`: buffer too small, negative: overflow).  Later Go releases stop at
the eleventh byte with a negative count where this loop runs to the end of the
buffer; the value returned is `0` in both. -/
def Uvarint (buf : Bytes) : Nat × Int :=
  uvarintLoop buf 0 0 0

/-- Go `binary.Varint(buf)`: zig-zag decoding of `Uvarint(buf)` to an `int64`;
`^x` on an `int64` is `-x - 1`. -/
def Varint (buf : Bytes) : Int × Int :=
  let r := Uvarint buf
  let ux := r.1
  let x : Int := ((ux >>> 1 : Nat) : Int)
  if ux &&& 1 ≠ 0 then (-x - 1, r.2) else (x, r.2)

/-! ## Data model -/

/-- Go `Nonce`, a `[32]byte`. -/
abbrev Nonce := { l : Bytes // l.length = 32 }

/-- Modelled from the spec: the type `ObjectID` is declared outside this file;
a composite key of the governing policy id (`darc.ID`, a byte slice) and an
instance nonce. -/
structure ObjectID where
  DarcID : Bytes
  InstanceID : Nonce
deriving DecidableEq

/-- Modelled from the spec: the method `ObjectID.Slice` is declared outside
this file; the key is `DarcID || InstanceID`, as the comments on
`GenesisReferenceID` (64 bytes of zeroes) and on `Config` say. -/
def ObjectID.Slice (oid : ObjectID) : Bytes :=
  oid.DarcID ++ oid.InstanceID.val

/-- ZeroNonce is 32 bytes of zeroes. -/
def ZeroNonce : Nonce := ⟨List.replicate 32 0, by decide⟩

/-- OneNonce has 32 bytes of zeros except the LSB is set to one. -/
def OneNonce : Nonce := ⟨List.replicate 31 0 ++ [1], by decide⟩

/-- ZeroDarc is a DarcID with all zeroes. -/
def ZeroDarc : Bytes := List.replicate 32 0

/-- GenesisReferenceID is 64 bytes of zeroes. -/
def GenesisReferenceID : ObjectID := ⟨ZeroDarc, ZeroNonce⟩

def ContractConfigID : GoString := go "config"

def ContractDarcID : GoString := go "darc"

def CmdDarcEvolve : GoString := go "Evolve"

/-- Config stores the configuration of one skipchain; `time.Duration` is an
`int64`. -/
structure Config where
  BlockInterval : Int
deriving DecidableEq

/-- Modelled from the spec: the type `darc.Darc` is declared in the package
`omniledger/darc`, outside this file.  A policy document: identity, version,
rules from action name to expression, and the signatures authorising this
version. -/
structure Darc where
  Version : Nat
  BaseID : Bytes
  Rules : List (GoString × Bytes)
  Signatures : List Bytes
deriving DecidableEq

/-- Modelled from the spec: `Argument` is declared outside this file; a named
byte-sequence value. -/
structure Argument where
  Name : GoString
  Value : Bytes
deriving DecidableEq

abbrev Arguments := List Argument

/-- Modelled from the spec: `Arguments.Search` is declared outside this file;
the value of the first argument with the given name, `nil` when there is
none. -/
def Arguments.Search (args : Arguments) (name : GoString) : Bytes :=
  match args.find? (fun a => decide (a.Name = name)) with
  | some a => a.Value
  | none => []

/-- Modelled from the spec: the three instruction bodies are declared outside
this file; an instruction carries exactly one of them. -/
inductive Operation where
  | Spawn (ContractID : GoString) (Args : Arguments)
  | Invoke (Command : GoString) (Args : Arguments)
  | Delete
deriving DecidableEq

/-- Modelled from the spec: `Instruction` is declared outside this file; the
target key, the operation and the credential material of the caller, which
the layer above the contracts verifies. -/
structure Instruction where
  ObjectID : ObjectID
  Op : Operation
  Signatures : List Bytes
deriving DecidableEq

inductive InstrType where
  | spawnType
  | invokeType
  | deleteType
deriving DecidableEq

/-- Modelled from the spec: `Instruction.getType` is declared outside this
file; the operation tag. -/
def Instruction.getType (tx : Instruction) : InstrType :=
  match tx.Op with
  | .Spawn _ _ => .spawnType
  | .Invoke _ _ => .invokeType
  | .Delete => .deleteType

inductive StateAction where
  | Create
  | Update
  | Remove
deriving DecidableEq

/-- Modelled from the spec: `StateChange` is declared outside this file:
action, key, contract kind and value. -/
structure StateChange where
  StateAction : StateAction
  ObjectID : ObjectID
  ContractID : GoString
  Value : Bytes
deriving DecidableEq

/-- Modelled from the spec: `NewStateChange` is declared outside this file; it
fills the four fields. -/
def NewStateChange (sa : StateAction) (oid : ObjectID) (contractID : GoString)
    (value : Bytes) : StateChange :=
  ⟨sa, oid, contractID, value⟩

/-- Modelled from the spec: `Coin` is declared outside this file; the handlers
treat it as an opaque side-channel value. -/
structure Coin where
  Name : Bytes
  Value : Nat
deriving DecidableEq

/-! ## The collection view -/

/-- A value of a record, a Go `interface{}`: a byte slice or something else. -/
inductive RecordValue where
  | bytes (b : Bytes)
  | other (n : Nat)
deriving DecidableEq

/-- The record behind `coll.Get(key).Record()`; `Values()` may fail. -/
structure Record where
  Values : Except GoError (List RecordValue)

/-- The interface `CollectionView` as the handlers use it: `Get key` is the
outcome of `coll.Get(key).Record()`. -/
structure CollectionView where
  Get : Bytes → Except GoError Record

/-- Modelled from the spec: `getValueContract` is declared outside this file;
it reads the record at `key` and returns its value and its contract kind, the
first two values of the record, both byte slices. -/
def getValueContract (coll : CollectionView) (key : Bytes) :
    Except GoError (Bytes × Bytes) :=
  match coll.Get key with
  | .error err => .error err
  | .ok record =>
    match record.Values with
    | .error err => .error err
    | .ok vs =>
      match vs with
      | .bytes value :: .bytes contract :: _ => .ok (value, contract)
      | _ => .error (go "MalformedRecord")

/-! ## What the file imports -/

/-- The functions of other packages that the file calls and whose code is not
part of it: the darc codec `darc.NewDarcFromProto`, the check `Darc.Verify`,
the evaluation of a rule expression against credentials, and
`protobuf.Encode` / `protobuf.Decode` at the type `Config`.  `Credentials` is
what the layer above the contracts supplies for the authorization decision:
the credential material of the caller of the instruction in execution, which
that layer has verified. -/
structure Externals where
  NewDarcFromProto : Bytes → Except GoError Darc
  Verify : Darc → Bool → Option GoError
  Satisfies : Bytes → List Bytes → Bool
  Credentials : List Bytes
  Encode : Config → Except GoError Bytes
  Decode : Bytes → Except GoError Config

/-- The rule of a darc for an action, the first entry with that name. -/
def Darc.rule (d : Darc) (action : GoString) : Option Bytes :=
  match d.Rules.find? (fun r => decide (r.1 = action)) with
  | some r => some r.2
  | none => none

/-- Whether credentials satisfy the rule "evolve" of the darc `d`; a darc
without that rule authorises nobody. -/
def Darc.evolveAuthorised (d : Darc) (X : Externals) (creds : List Bytes) : Bool :=
  match d.rule (go "evolve") with
  | none => false
  | some expr => X.Satisfies expr creds

/-- Modelled from the spec: the method `Darc.SanityCheck` of the package
`omniledger/darc` is not part of this file.  `newD.SanityCheck(oldD)` requires
`new.BaseID == old.BaseID`, `new.Version == old.Version + 1`, and that the
caller's credentials satisfy `old.Rules["evolve"]`.  The credentials are those
of the caller, `X.Credentials`, not a part of the candidate: the third test
reads the old darc and the caller only. -/
def SanityCheck (X : Externals) (newD oldD : Darc) : Option GoError :=
  if newD.BaseID ≠ oldD.BaseID then
    some (go "BaseIDMismatch")
  else if newD.Version ≠ oldD.Version + 1 then
    some (go "VersionMismatch")
  else if ¬ oldD.evolveAuthorised X X.Credentials then
    some (go "AuthorizationDenied")
  else
    none

/-! ## The loaders -/

/-- LoadConfigFromColl loads the configuration data from the collections. -/
def LoadConfigFromColl (X : Externals) (coll : CollectionView) :
    Except GoError Config :=
  -- Find the genesis-darc ID.
  match getValueContract coll GenesisReferenceID.Slice with
  | .error err => .error err
  | .ok (val, contract) =>
    if contract ≠ ContractConfigID then
      .error (go "did not get " ++ ContractConfigID)
    else if val.length ≠ 32 then
      .error (go "value has a invalid length")
    else
      -- Use the genesis-darc ID to create the config key and read the config.
      let configID : ObjectID := ⟨val, OneNonce⟩
      match getValueContract coll configID.Slice with
      | .error err => .error err
      | .ok (val, contract) =>
        if contract ≠ ContractConfigID then
          .error (go "did not get " ++ ContractConfigID)
        else
          match X.Decode val with
          | .error err => .error err
          | .ok config => .ok config

/-- LoadBlockIntervalFromColl loads the block interval from the collections.
The constant `defaultInterval` is declared outside this file and is taken as
a parameter. -/
def LoadBlockIntervalFromColl (X : Externals) (defaultInterval : Int)
    (coll : CollectionView) : Int × Option GoError :=
  match LoadConfigFromColl X coll with
  | .error err => (defaultInterval, some err)
  | .ok config => (config.BlockInterval, none)

/-- LoadDarcFromColl loads a darc which should be stored in key. -/
def LoadDarcFromColl (X : Externals) (coll : CollectionView) (key : Bytes) :
    Except GoError Darc :=
  match coll.Get key with
  | .error err => .error err
  | .ok record =>
    match record.Values with
    | .error err => .error err
    | .ok vs =>
      if vs.length < 2 then
        .error (go "not enough records")
      else
        match vs.get? 1 with
        | some (.bytes contractBuf) =>
          if contractBuf ≠ go "darc" then
            .error (go "expected contract to be darc but got: " ++ contractBuf)
          else
            match vs.get? 0 with
            | some (.bytes darcBuf) =>
              match X.NewDarcFromProto darcBuf with
              | .error err => .error err
              | .ok d => .ok d
            | _ => .error (go "cannot cast value to byte slice")
        | _ => .error (go "can not cast value to byte slice")

/-! ## The contracts -/

/-- The three results `(sc, c, err)` of a contract. -/
structure ContractResult where
  sc : List StateChange
  c : List Coin
  err : Option GoError
deriving DecidableEq

/-- ContractConfig can only be instantiated once per skipchain, and only for
the genesis block.  The results are named, and the bare returns give back
`sc` and `c` as they are then, nil, with the `err` assigned last.  The calls
to `log.Error` have no effect on the results. -/
def ContractConfig (X : Externals) (_cdb : CollectionView) (tx : Instruction)
    (_coins : List Coin) : ContractResult :=
  if tx.getType ≠ .spawnType then
    ⟨[], [], some (go "Config can only be spawned")⟩
  else
    match tx.Op with
    | .Spawn _ args =>
      let darcBuf := Arguments.Search args (go "darc")
      match X.NewDarcFromProto darcBuf with
      | .error err => ⟨[], [], some err⟩
      | .ok d =>
        if d.Rules.length = 0 then
          ⟨[], [], some (go "don't accept darc with empty rules")⟩
        else
          match X.Verify d true with
          | some err => ⟨[], [], some err⟩
          | none =>
            -- sanity check the block interval
            let intervalBuf := Arguments.Search args (go "block_interval")
            let interval := (Varint intervalBuf).1
            if interval = 0 then
              ⟨[], [], some (go "block interval is zero")⟩
            else
              -- create the config to be stored by state changes
              let config : Config := ⟨interval⟩
              match X.Encode config with
              | .error err => ⟨[], [], some err⟩
              | .ok configBuf =>
                ⟨[ NewStateChange .Create GenesisReferenceID ContractConfigID
                     tx.ObjectID.DarcID,
                   NewStateChange .Create tx.ObjectID ContractDarcID darcBuf,
                   NewStateChange .Create ⟨tx.ObjectID.DarcID, OneNonce⟩
                     ContractConfigID configBuf ],
                 [], none⟩
    -- excluded by the test of the tag: `tx.Spawn` is not nil here
    | _ => ⟨[], [], some (go "Config can only be spawned")⟩

/-- ContractDarc accepts `Invoke.Evolve`, which evolves an existing darc. -/
def ContractDarc (X : Externals) (coll : CollectionView) (tx : Instruction)
    (_coins : List Coin) : ContractResult :=
  if tx.getType ≠ .invokeType then
    ⟨[], [], some (go "Darc can only be invoked (evolved)")⟩
  else
    match tx.Op with
    | .Invoke command args =>
      if command = go "evolve" then
        let darcBuf := Arguments.Search args (go "darc")
        match X.NewDarcFromProto darcBuf with
        | .error err => ⟨[], [], some err⟩
        | .ok newD =>
          match LoadDarcFromColl X coll (ObjectID.mk newD.BaseID ZeroNonce).Slice with
          | .error err => ⟨[], [], some err⟩
          | .ok oldD =>
            match SanityCheck X newD oldD with
            | some err => ⟨[], [], some err⟩
            | none =>
              ⟨[NewStateChange .Update tx.ObjectID ContractDarcID darcBuf], [], none⟩
      else if command = go "add" then
        ⟨[], [], some (go "not implemented")⟩
      else
        ⟨[], [], some (go "invalid command: " ++ command)⟩
    -- excluded by the test of the tag: `tx.Invoke` is not nil here
    | _ => ⟨[], [], some (go "Darc can only be invoked (evolved)")⟩

/-! ## Applying state changes -/

/-- Modelled from the spec: the store and the layer that applies state changes
to it are not part of this file.  A store maps a key to a record
`(value, contract kind, owning policy id)`. -/
abbrev Store := List (Bytes × List RecordValue)

def Store.lookup : Store → Bytes → Option (List RecordValue)
  | [], _ => none
  | (k, vs) :: rest, key => if k = key then some vs else Store.lookup rest key

/-- The read view of a store; an absent key is not found. -/
def Store.view (s : Store) : CollectionView :=
  ⟨fun key =>
    match s.lookup key with
    | some vs => .ok ⟨.ok vs⟩
    | none => .error (go "NotFound")⟩

/-- Modelled from the spec: applying one state change.  A Create at an
existing key is rejected; an Update writes the record at its key; a Remove
deletes it. -/
def applyStateChange (s : Store) (sc : StateChange) : Except GoError Store :=
  let key := sc.ObjectID.Slice
  let record : List RecordValue :=
    [.bytes sc.Value, .bytes sc.ContractID, .bytes sc.ObjectID.DarcID]
  match sc.StateAction with
  | .Create =>
    match s.lookup key with
    | some _ => .error (go "duplicate Create")
    | none => .ok ((key, record) :: s)
  | .Update => .ok ((key, record) :: s)
  | .Remove => .ok (s.filter (fun e => decide (e.1 ≠ key)))

/-- Applying a list of state changes in order, stopping at the first that is
rejected. -/
def applyStateChanges : Store → List StateChange → Except GoError Store
  | s, [] => .ok s
  | s, sc :: rest =>
    match applyStateChange s sc with
    | .error err => .error err
    | .ok s1 => applyStateChanges s1 rest

/-! ## A concrete instance of the imported functions

Used to evaluate the handlers on concrete inputs. -/

/-- A darc codec: version byte, rule byte (`0`: no rule, else the expression
of the rule "evolve"), signature byte (`0`: none), then the base id. -/
def sampleNewDarcFromProto : Bytes → Except GoError Darc
  | v :: r :: g :: id =>
    .ok ⟨v.val, id, if r = 0 then [] else [(go "evolve", [r])],
      if g = 0 then [] else [[g]]⟩
  | _ => .error (go "short buffer")

/-- A fixed-width codec of `Config`: a sign byte and eight little-endian
bytes of the magnitude. -/
def sampleEncode (c : Config) : Except GoError Bytes :=
  let n := c.BlockInterval.natAbs
  .ok ((if c.BlockInterval < 0 then 1 else 0) ::
    (List.range 8).map (fun k => Fin.ofNat (n / 256 ^ k)))

def sampleDecode : Bytes → Except GoError Config
  | sign :: digits =>
    if digits.length = 8 then
      let n : Nat := digits.foldr (fun d acc => d.val + 256 * acc) 0
      .ok ⟨if sign = 0 then (n : Int) else -(n : Int)⟩
    else .error (go "bad length")
  | [] => .error (go "bad length")

/-- The credentials of the caller in the examples: the signer `6`. -/
def sampleSigs : List Bytes := [[6]]

/-- A darc verifies when it is signed; an expression names a signer and is
satisfied when that signer is among the credentials; the caller is the one of
`sampleSigs`. -/
def sampleExternals : Externals where
  NewDarcFromProto := sampleNewDarcFromProto
  Verify := fun d _ => if d.Signatures = [] then some (go "not signed") else none
  Satisfies := fun expr sigs => decide (expr ∈ sigs)
  Credentials := sampleSigs
  Encode := sampleEncode
  Decode := sampleDecode

/-- The view of the empty store. -/
def emptyView : CollectionView := Store.view []

/-- A 32-byte policy id used in the examples. -/
def sampleID : Bytes := List.replicate 32 7

/-- Another 32-byte policy id. -/
def otherID : Bytes := List.replicate 32 9

/-- A signed version-0 darc with base id `sampleID` whose rule "evolve" asks
for the signer `5`. -/
def sampleDarcBuf : Bytes := 0 :: 5 :: 5 :: sampleID

/-- The arguments of a genesis spawn: the darc and a block interval of 5. -/
def sampleSpawnArgs : Arguments :=
  [⟨go "darc", sampleDarcBuf⟩, ⟨go "block_interval", [10]⟩]

/-- A record of kind "darc". -/
def darcRecord (buf owner : Bytes) : List RecordValue :=
  [.bytes buf, .bytes (go "darc"), .bytes owner]

/-- A signed version-0 darc with base id `otherID` whose rule "evolve" asks for
the signer `6`. -/
def otherDarcBuf : Bytes := 0 :: 6 :: 6 :: otherID

/-- Version 1 of the darc `otherID`, signed by `6`. -/
def otherEvolvedBuf : Bytes := 1 :: 6 :: 6 :: otherID

/-- A store holding the darc `sampleID` and the darc `otherID`, each in the
slot `(base id, ZeroNonce)`. -/
def twoDarcStore : Store :=
  [ ((ObjectID.mk sampleID ZeroNonce).Slice, darcRecord sampleDarcBuf sampleID),
    ((ObjectID.mk otherID ZeroNonce).Slice, darcRecord otherDarcBuf otherID) ]

/-- The store after the genesis spawn of `sampleSpawnArgs` at
`(sampleID, ZeroNonce)`. -/
def genesisStore : Store :=
  [ ((ObjectID.mk sampleID OneNonce).Slice,
      [.bytes [0, 5, 0, 0, 0, 0, 0, 0, 0], .bytes (go "config"), .bytes sampleID]),
    ((ObjectID.mk sampleID ZeroNonce).Slice, darcRecord sampleDarcBuf sampleID),
    (GenesisReferenceID.Slice,
      [.bytes sampleID, .bytes (go "config"), .bytes ZeroDarc]) ]

/-! ## Theorems -/

/-! ### `Uvarint` / `Varint` -/

theorem uvarintLoop_nonpos (buf : Bytes) :
    ∀ i x s, (uvarintLoop buf i x s).2 ≤ 0 → (uvarintLoop buf i x s).1 = 0 := by
  induction buf with
  | nil => intro i x s _; rfl
  | cons b rest ih =>
    intro i x s h
    unfold uvarintLoop at h ⊢
    by_cases hb : b.val < 0x80
    · by_cases ho : i > 9 ∨ (i = 9 ∧ b.val > 1)
      · simp [hb, ho]
      · simp only [hb, ho, if_true, if_false] at h
        omega
    · simp only [hb, if_false] at h ⊢
      exact ih _ _ _ h

theorem uvarintLoop_continuation (buf : Bytes) (hc : ∀ b ∈ buf, 0x80 ≤ b.val) :
    ∀ i x s, uvarintLoop buf i x s = (0, 0) := by
  induction buf with
  | nil => intro i x s; rfl
  | cons b rest ih =>
    intro i x s
    have hb : ¬ b.val < 0x80 := by
      have := hc b (List.mem_cons_self _ _)
      omega
    unfold uvarintLoop
    simp only [hb, if_false]
    exact ih (fun c hcm => hc c (List.mem_cons_of_mem _ hcm)) _ _ _

theorem Varint_of_Uvarint_zero (buf : Bytes) (h : (Uvarint buf).1 = 0) :
    (Varint buf).1 = 0 := by
  unfold Varint
  simp [h]

/-- A buffer that `Varint` cannot read (count `0`: truncated, negative count:
overflow) gives the value `0`. -/
theorem Varint_garbled (buf : Bytes) (h : (Varint buf).2 ≤ 0) :
    (Varint buf).1 = 0 := by
  have h2 : (Uvarint buf).2 ≤ 0 := by
    have e : (Varint buf).2 = (Uvarint buf).2 := by
      simp only [Varint]
      split <;> rfl
    rw [← e]
    exact h
  exact Varint_of_Uvarint_zero buf (uvarintLoop_nonpos buf 0 0 0 h2)

theorem Search_missing (args : Arguments) (name : GoString)
    (h : ∀ a ∈ args, a.Name ≠ name) : Arguments.Search args name = [] := by
  unfold Arguments.Search
  have : args.find? (fun a => decide (a.Name = name)) = none := by
    rw [List.find?_eq_none]
    intro a ha
    simpa using h a ha
  rw [this]

/-! ### `ContractConfig` -/

/-- The successful run of `ContractConfig`. -/
theorem ContractConfig_spawn_eq (X : Externals) (cdb : CollectionView)
    (oid : ObjectID) (cid : GoString) (args : Arguments) (sigs : List Bytes)
    (coins : List Coin)
    (d : Darc) (configBuf : Bytes)
    (hd : X.NewDarcFromProto (Arguments.Search args (go "darc")) = .ok d)
    (hr : d.Rules ≠ []) (hv : X.Verify d true = none)
    (hi : (Varint (Arguments.Search args (go "block_interval"))).1 ≠ 0)
    (he : X.Encode ⟨(Varint (Arguments.Search args (go "block_interval"))).1⟩
      = .ok configBuf) :
    ContractConfig X cdb ⟨oid, .Spawn cid args, sigs⟩ coins =
      ⟨[ ⟨.Create, GenesisReferenceID, go "config", oid.DarcID⟩,
         ⟨.Create, oid, go "darc", Arguments.Search args (go "darc")⟩,
         ⟨.Create, ⟨oid.DarcID, OneNonce⟩, go "config", configBuf⟩ ],
       [], none⟩ := by
  have hlen : ¬ d.Rules.length = 0 := by
    intro h0
    exact hr (List.length_eq_zero.mp h0)
  simp only [ContractConfig, Instruction.getType, ne_eq, not_true_eq_false,
    if_false, hd, hlen, hv, hi, he, NewStateChange, ContractConfigID, ContractDarcID]

/-- What a run of `ContractConfig` without error looks like. -/
theorem ContractConfig_ok_inv (X : Externals) (cdb : CollectionView)
    (tx : Instruction) (coins : List Coin)
    (hok : (ContractConfig X cdb tx coins).err = none) :
    ∃ cid args d configBuf,
      tx.Op = .Spawn cid args ∧
      X.NewDarcFromProto (Arguments.Search args (go "darc")) = .ok d ∧
      d.Rules ≠ [] ∧ X.Verify d true = none ∧
      (Varint (Arguments.Search args (go "block_interval"))).1 ≠ 0 ∧
      X.Encode ⟨(Varint (Arguments.Search args (go "block_interval"))).1⟩
        = .ok configBuf := by
  obtain ⟨oid, op, sigs⟩ := tx
  cases op with
  | Invoke command args => simp [ContractConfig, Instruction.getType] at hok
  | Delete => simp [ContractConfig, Instruction.getType] at hok
  | Spawn cid args =>
    refine ⟨cid, args, ?_⟩
    simp only [ContractConfig, Instruction.getType, ne_eq, not_true_eq_false,
      if_false] at hok
    cases hd : X.NewDarcFromProto (Arguments.Search args (go "darc")) with
    | error e => simp [hd] at hok
    | ok d =>
      simp only [hd] at hok
      by_cases hlen : d.Rules.length = 0
      · simp [hlen] at hok
      · simp only [hlen, if_false] at hok
        cases hv : X.Verify d true with
        | some e => simp [hv] at hok
        | none =>
          simp only [hv] at hok
          by_cases hi : (Varint (Arguments.Search args (go "block_interval"))).1 = 0
          · simp [hi] at hok
          · simp only [hi, if_false] at hok
            cases he : X.Encode
                ⟨(Varint (Arguments.Search args (go "block_interval"))).1⟩ with
            | error e => simp [he] at hok
            | ok configBuf =>
              refine ⟨d, configBuf, rfl, rfl, ?_, hv, hi, rfl⟩
              intro h0
              exact hlen (by simp [h0])

/-- A run of `ContractConfig` that ends with an error returns nil state
changes, and no run returns coins. -/
theorem ContractConfig_err_nil (X : Externals) (cdb : CollectionView)
    (tx : Instruction) (coins : List Coin)
    (herr : (ContractConfig X cdb tx coins).err ≠ none) :
    (ContractConfig X cdb tx coins).sc = [] ∧
      (ContractConfig X cdb tx coins).c = [] := by
  cases hok : (ContractConfig X cdb tx coins).err with
  | some e =>
    obtain ⟨oid, op, sigs⟩ := tx
    cases op with
    | Invoke command args => simp [ContractConfig, Instruction.getType]
    | Delete => simp [ContractConfig, Instruction.getType]
    | Spawn cid args =>
      simp only [ContractConfig, Instruction.getType, ne_eq, not_true_eq_false,
        if_false] at hok ⊢
      cases hd : X.NewDarcFromProto (Arguments.Search args (go "darc")) with
      | error e => simp
      | ok d =>
        simp only [hd] at hok ⊢
        by_cases hlen : d.Rules.length = 0
        · simp [hlen]
        · simp only [hlen, if_false] at hok ⊢
          cases hv : X.Verify d true with
          | some e => simp
          | none =>
            simp only [hv] at hok ⊢
            by_cases hi : (Varint (Arguments.Search args (go "block_interval"))).1 = 0
            · simp [hi]
            · simp only [hi, if_false] at hok ⊢
              cases he : X.Encode
                  ⟨(Varint (Arguments.Search args (go "block_interval"))).1⟩ with
              | error e => simp
              | ok configBuf => simp [he] at hok
  | none => exact absurd hok herr

/-- C1. A Spawn instruction whose "darc" argument decodes to a darc with a
non-empty rule set that passes `Verify(true)`, and whose "block_interval"
argument varint-decodes to a non-zero `i`, makes `ContractConfig` return no
error and exactly three state changes, in this order: Create at
`GenesisReferenceID` of kind "config", Create at `tx.ObjectID` of kind "darc"
with the raw "darc" argument, Create at `(tx.ObjectID.DarcID, OneNonce)` of
kind "config" with the encoding `configBuf` of `Config{BlockInterval = i}`. -/
theorem ContractConfig_spawn_three_creates (X : Externals) (cdb : CollectionView)
    (oid : ObjectID) (cid : GoString) (args : Arguments) (sigs : List Bytes)
    (coins : List Coin)
    (d : Darc) (i : Int) (configBuf : Bytes)
    (hd : X.NewDarcFromProto (Arguments.Search args (go "darc")) = .ok d)
    (hr : d.Rules ≠ []) (hv : X.Verify d true = none)
    (hi : (Varint (Arguments.Search args (go "block_interval"))).1 = i)
    (hnz : i ≠ 0)
    (he : X.Encode ⟨i⟩ = .ok configBuf) :
    ContractConfig X cdb ⟨oid, .Spawn cid args, sigs⟩ coins =
      ⟨[ ⟨.Create, GenesisReferenceID, go "config", oid.DarcID⟩,
         ⟨.Create, oid, go "darc", Arguments.Search args (go "darc")⟩,
         ⟨.Create, ⟨oid.DarcID, OneNonce⟩, go "config", configBuf⟩ ],
       [], none⟩ := by
  subst hi
  exact ContractConfig_spawn_eq X cdb oid cid args sigs coins d configBuf hd hr hv hnz he

theorem ContractConfig_spawn_three_creates_witness :
    ContractConfig sampleExternals emptyView
        ⟨⟨sampleID, ZeroNonce⟩, .Spawn (go "config") sampleSpawnArgs, sampleSigs⟩ [] =
      ⟨[ ⟨.Create, GenesisReferenceID, go "config", sampleID⟩,
         ⟨.Create, ⟨sampleID, ZeroNonce⟩, go "darc", sampleDarcBuf⟩,
         ⟨.Create, ⟨sampleID, OneNonce⟩, go "config", [0, 5, 0, 0, 0, 0, 0, 0, 0]⟩ ],
       [], none⟩ :=
  ContractConfig_spawn_three_creates sampleExternals emptyView ⟨sampleID, ZeroNonce⟩
    (go "config") sampleSpawnArgs sampleSigs [] ⟨0, sampleID, [(go "evolve", [5])], [[5]]⟩ 5
    [0, 5, 0, 0, 0, 0, 0, 0, 0] (by rfl) (by decide) (by rfl) (by decide) (by decide)
    (by rfl)

/-- C6. For a Spawn instruction, if the decoded darc has an empty rule set, or
if the "block_interval" argument is missing, cannot be read by `Varint`
(count `0`: truncated, negative count: overflow) or decodes to zero, then
`ContractConfig` returns an error, nil state changes and nil coins. -/
theorem ContractConfig_spawn_rejects (X : Externals) (cdb : CollectionView)
    (oid : ObjectID) (cid : GoString) (args : Arguments) (sigs : List Bytes)
    (coins : List Coin)
    (h : (∃ d, X.NewDarcFromProto (Arguments.Search args (go "darc")) = .ok d ∧
            d.Rules = []) ∨
         (∀ a ∈ args, a.Name ≠ go "block_interval") ∨
         (Varint (Arguments.Search args (go "block_interval"))).2 ≤ 0 ∨
         (Varint (Arguments.Search args (go "block_interval"))).1 = 0) :
    (ContractConfig X cdb ⟨oid, .Spawn cid args, sigs⟩ coins).err ≠ none ∧
      (ContractConfig X cdb ⟨oid, .Spawn cid args, sigs⟩ coins).sc = [] ∧
      (ContractConfig X cdb ⟨oid, .Spawn cid args, sigs⟩ coins).c = [] := by
  have herr : (ContractConfig X cdb ⟨oid, .Spawn cid args, sigs⟩ coins).err ≠ none := by
    intro hok
    obtain ⟨cid1, args1, d, configBuf, hop, hd, hr, _, hi, _⟩ :=
      ContractConfig_ok_inv X cdb _ coins hok
    simp only [Operation.Spawn.injEq] at hop
    obtain ⟨_, rfl⟩ := hop
    rcases h with ⟨d0, hd0, hr0⟩ | hmiss | hgar | hzero
    · rw [hd] at hd0
      cases hd0
      exact hr hr0
    · apply hi
      rw [Search_missing args _ hmiss]
      decide
    · exact hi (Varint_garbled _ hgar)
    · exact hi hzero
  exact ⟨herr, ContractConfig_err_nil X cdb _ coins herr⟩

theorem ContractConfig_spawn_rejects_witness :
    (ContractConfig sampleExternals emptyView
        ⟨⟨sampleID, ZeroNonce⟩,
          .Spawn (go "config") [⟨go "darc", sampleDarcBuf⟩,
            ⟨go "block_interval", [0x80, 0x80]⟩], sampleSigs⟩ []).err ≠ none ∧
      (ContractConfig sampleExternals emptyView
        ⟨⟨sampleID, ZeroNonce⟩,
          .Spawn (go "config") [⟨go "darc", sampleDarcBuf⟩,
            ⟨go "block_interval", [0x80, 0x80]⟩], sampleSigs⟩ []).sc = [] ∧
      (ContractConfig sampleExternals emptyView
        ⟨⟨sampleID, ZeroNonce⟩,
          .Spawn (go "config") [⟨go "darc", sampleDarcBuf⟩,
            ⟨go "block_interval", [0x80, 0x80]⟩], sampleSigs⟩ []).c = [] :=
  ContractConfig_spawn_rejects sampleExternals emptyView ⟨sampleID, ZeroNonce⟩
    (go "config") [⟨go "darc", sampleDarcBuf⟩, ⟨go "block_interval", [0x80, 0x80]⟩] sampleSigs []
    (Or.inr (Or.inr (Or.inl (by decide))))

/-- C10. For every instruction whose tag is not Spawn (Invoke or Delete), for
every view, arguments and coins, `ContractConfig` returns the error
"Config can only be spawned" with nil state changes; the result is the same
whatever the instruction carries and the view holds. -/
theorem ContractConfig_only_spawned (X : Externals) (cdb : CollectionView)
    (tx : Instruction) (coins : List Coin)
    (h : tx.getType = .invokeType ∨ tx.getType = .deleteType) :
    ContractConfig X cdb tx coins =
      ⟨[], [], some (go "Config can only be spawned")⟩ := by
  have hne : tx.getType ≠ .spawnType := by
    rcases h with h | h <;> rw [h] <;> decide
  simp [ContractConfig, hne]

theorem ContractConfig_only_spawned_witness :
    ContractConfig sampleExternals emptyView
        ⟨⟨sampleID, ZeroNonce⟩, .Invoke (go "evolve") sampleSpawnArgs, sampleSigs⟩ [] =
      ⟨[], [], some (go "Config can only be spawned")⟩ :=
  ContractConfig_only_spawned sampleExternals emptyView
    ⟨⟨sampleID, ZeroNonce⟩, .Invoke (go "evolve") sampleSpawnArgs, sampleSigs⟩ []
    (Or.inl (by decide))

/-! ### `ContractDarc` -/

/-- The branch "evolve" of `ContractDarc`. -/
theorem ContractDarc_evolve_eq (X : Externals) (coll : CollectionView)
    (oid : ObjectID) (args : Arguments) (sigs : List Bytes)
    (coins : List Coin) :
    ContractDarc X coll ⟨oid, .Invoke (go "evolve") args, sigs⟩ coins =
      match X.NewDarcFromProto (Arguments.Search args (go "darc")) with
      | .error err => ⟨[], [], some err⟩
      | .ok newD =>
        match LoadDarcFromColl X coll (ObjectID.mk newD.BaseID ZeroNonce).Slice with
        | .error err => ⟨[], [], some err⟩
        | .ok oldD =>
          match SanityCheck X newD oldD with
          | some err => ⟨[], [], some err⟩
          | none =>
            ⟨[⟨.Update, oid, go "darc", Arguments.Search args (go "darc")⟩], [], none⟩ := by
  simp only [ContractDarc, Instruction.getType, ne_eq, not_true_eq_false, if_false,
    if_true, NewStateChange, ContractDarcID]

/-- The "evolve" branch once the candidate is decoded and the old darc loaded. -/
theorem ContractDarc_evolve_loaded (X : Externals) (coll : CollectionView)
    (oid : ObjectID) (args : Arguments) (sigs : List Bytes)
    (coins : List Coin) (newD oldD : Darc)
    (hnew : X.NewDarcFromProto (Arguments.Search args (go "darc")) = .ok newD)
    (hold : LoadDarcFromColl X coll (ObjectID.mk newD.BaseID ZeroNonce).Slice = .ok oldD) :
    ContractDarc X coll ⟨oid, .Invoke (go "evolve") args, sigs⟩ coins =
      match SanityCheck X newD oldD with
      | some err => ⟨[], [], some err⟩
      | none =>
        ⟨[⟨.Update, oid, go "darc", Arguments.Search args (go "darc")⟩], [], none⟩ := by
  rw [ContractDarc_evolve_eq]
  simp only [hnew, hold]

/-- Loading a darc from a store whose record at the key is of kind "darc". -/
theorem LoadDarcFromColl_view (X : Externals) (s : Store) (key buf : Bytes)
    (rest : List RecordValue)
    (h : s.lookup key = some (.bytes buf :: .bytes (go "darc") :: rest)) :
    LoadDarcFromColl X s.view key = X.NewDarcFromProto buf := by
  simp only [LoadDarcFromColl, Store.view, h]
  have hlen : ¬ (RecordValue.bytes buf :: .bytes (go "darc") :: rest).length < 2 := by
    simp
  simp only [hlen, if_false, List.get?_cons_succ, List.get?_cons_zero, ne_eq,
    not_true_eq_false]
  cases X.NewDarcFromProto buf <;> rfl

/-- `LoadDarcFromColl` on a record whose values are known. -/
theorem LoadDarcFromColl_values (X : Externals) (coll : CollectionView)
    (key : Bytes) (record : Record) (vs : List RecordValue)
    (hg : coll.Get key = .ok record) (hv : record.Values = .ok vs) :
    LoadDarcFromColl X coll key =
      if vs.length < 2 then .error (go "not enough records")
      else
        match vs.get? 1 with
        | some (.bytes contractBuf) =>
          if contractBuf ≠ go "darc" then
            .error (go "expected contract to be darc but got: " ++ contractBuf)
          else
            match vs.get? 0 with
            | some (.bytes darcBuf) => X.NewDarcFromProto darcBuf
            | _ => .error (go "cannot cast value to byte slice")
        | _ => .error (go "can not cast value to byte slice") := by
  simp only [LoadDarcFromColl, hg, hv]
  split
  · rfl
  · split
    · split
      · rfl
      · split
        · cases X.NewDarcFromProto _ <;> rfl
        · rfl
    · rfl

/-- When `LoadDarcFromColl` returns a darc. -/
theorem LoadDarcFromColl_ok_iff (X : Externals) (coll : CollectionView)
    (key : Bytes) (d : Darc) :
    LoadDarcFromColl X coll key = .ok d ↔
      ∃ record buf rest,
        coll.Get key = .ok record ∧
        record.Values = .ok (.bytes buf :: .bytes (go "darc") :: rest) ∧
        X.NewDarcFromProto buf = .ok d := by
  cases hg : coll.Get key with
  | error e =>
    constructor
    · intro h
      simp [LoadDarcFromColl, hg] at h
    · rintro ⟨record, buf, rest, h1, _, _⟩
      cases h1
  | ok record =>
    cases hv : record.Values with
    | error e =>
      constructor
      · intro h
        simp [LoadDarcFromColl, hg, hv] at h
      · rintro ⟨record1, buf, rest, h1, h2, _⟩
        cases h1
        rw [hv] at h2
        cases h2
    | ok vs =>
      rw [LoadDarcFromColl_values X coll key record vs hg hv]
      constructor
      · intro h
        match vs, hv, h with
        | [], _, h => simp at h
        | [_], _, h => simp at h
        | a :: .other n :: l, _, h =>
          have hl : ¬ (a :: RecordValue.other n :: l).length < 2 := by simp
          simp only [hl, if_false, List.get?_cons_succ, List.get?_cons_zero] at h
          cases h
        | .other n :: .bytes c :: l, _, h =>
          have hl : ¬ (RecordValue.other n :: RecordValue.bytes c :: l).length < 2 := by
            simp
          simp only [hl, if_false, List.get?_cons_succ, List.get?_cons_zero] at h
          by_cases hc : c = go "darc" <;> simp [hc] at h
        | .bytes buf :: .bytes c :: rest, hv, h =>
          have hl : ¬ (RecordValue.bytes buf :: RecordValue.bytes c :: rest).length < 2 := by
            simp
          by_cases hc : c = go "darc"
          · subst hc
            simp only [hl, if_false, List.get?_cons_succ, List.get?_cons_zero, ne_eq,
              not_true_eq_false] at h
            exact ⟨record, buf, rest, rfl, hv, h⟩
          · simp only [hl, if_false, List.get?_cons_succ, List.get?_cons_zero] at h
            simp [hc] at h
      · rintro ⟨record1, buf, rest, h1, h2, h3⟩
        cases h1
        rw [hv] at h2
        cases h2
        simp [h3]

/-- C9. For every instruction whose tag is Spawn or Delete, whatever it
carries, for every view and coins, `ContractDarc` returns the error
"Darc can only be invoked (evolved)" with nil state changes; the result does
not depend on the view, and such an instruction has no Invoke part. -/
theorem ContractDarc_only_invoked (X : Externals) (coll : CollectionView)
    (tx : Instruction) (coins : List Coin)
    (h : tx.getType = .spawnType ∨ tx.getType = .deleteType) :
    ContractDarc X coll tx coins =
      ⟨[], [], some (go "Darc can only be invoked (evolved)")⟩ := by
  have hne : tx.getType ≠ .invokeType := by
    rcases h with h | h <;> rw [h] <;> decide
  simp [ContractDarc, hne]

theorem ContractDarc_only_invoked_witness :
    ContractDarc sampleExternals twoDarcStore.view
        ⟨⟨otherID, ZeroNonce⟩, .Spawn (go "evolve") [⟨go "darc", otherEvolvedBuf⟩], sampleSigs⟩ [] =
      ⟨[], [], some (go "Darc can only be invoked (evolved)")⟩ :=
  ContractDarc_only_invoked sampleExternals twoDarcStore.view
    ⟨⟨otherID, ZeroNonce⟩, .Spawn (go "evolve") [⟨go "darc", otherEvolvedBuf⟩], sampleSigs⟩ []
    (Or.inl (by decide))

/-- C3, as the code has it.  When the instruction targets the slot of the
candidate, `tx.ObjectID = (BaseID(D'), ZeroNonce)`, and that key holds a darc
`D` with `BaseID(D') ≠ BaseID(D)`, `ContractDarc` "evolve" fails with the
lineage error and emits no state changes. -/
theorem ContractDarc_evolve_lineage (X : Externals) (coll : CollectionView)
    (oid : ObjectID) (args : Arguments) (sigs : List Bytes)
    (coins : List Coin) (newD D : Darc)
    (hnew : X.NewDarcFromProto (Arguments.Search args (go "darc")) = .ok newD)
    (hkey : oid = ⟨newD.BaseID, ZeroNonce⟩)
    (hold : LoadDarcFromColl X coll oid.Slice = .ok D)
    (hne : newD.BaseID ≠ D.BaseID) :
    ContractDarc X coll ⟨oid, .Invoke (go "evolve") args, sigs⟩ coins =
      ⟨[], [], some (go "BaseIDMismatch")⟩ := by
  subst hkey
  rw [ContractDarc_evolve_loaded X coll _ args sigs coins newD D hnew hold]
  simp [SanityCheck, hne]

theorem ContractDarc_evolve_lineage_witness :
    ContractDarc sampleExternals
        (Store.view [((ObjectID.mk otherID ZeroNonce).Slice,
          darcRecord sampleDarcBuf otherID)])
        ⟨⟨otherID, ZeroNonce⟩, .Invoke (go "evolve") [⟨go "darc", otherEvolvedBuf⟩], sampleSigs⟩ [] =
      ⟨[], [], some (go "BaseIDMismatch")⟩ :=
  ContractDarc_evolve_lineage sampleExternals
    (Store.view [((ObjectID.mk otherID ZeroNonce).Slice, darcRecord sampleDarcBuf otherID)])
    ⟨otherID, ZeroNonce⟩ [⟨go "darc", otherEvolvedBuf⟩] sampleSigs []
    ⟨1, otherID, [(go "evolve", [6])], [[6]]⟩
    ⟨0, sampleID, [(go "evolve", [5])], [[5]]⟩ (by rfl) (by rfl) (by rfl) (by decide)

/-- C3 fails as stated: the store holds the darc `sampleID` at the key that
the instruction targets, the candidate has the base id `otherID`, and
`ContractDarc` emits an Update at the targeted key. -/
theorem ContractDarc_evolve_lineage_counterexample :
    LoadDarcFromColl sampleExternals twoDarcStore.view
        (ObjectID.mk sampleID ZeroNonce).Slice =
      .ok ⟨0, sampleID, [(go "evolve", [5])], [[5]]⟩ ∧
    sampleExternals.NewDarcFromProto otherEvolvedBuf =
      .ok ⟨1, otherID, [(go "evolve", [6])], [[6]]⟩ ∧
    otherID ≠ sampleID ∧
    ContractDarc sampleExternals twoDarcStore.view
        ⟨⟨sampleID, ZeroNonce⟩, .Invoke (go "evolve") [⟨go "darc", otherEvolvedBuf⟩], sampleSigs⟩ [] =
      ⟨[⟨.Update, ⟨sampleID, ZeroNonce⟩, go "darc", otherEvolvedBuf⟩], [], none⟩ :=
  ⟨by rfl, by rfl, by decide, by decide⟩

/-- C4. For every darc `D` of version `v` stored at `(BaseID(D), ZeroNonce)`
and every candidate `D'` with `BaseID(D') = BaseID(D)` and
`Version(D') ≠ v + 1`, `ContractDarc` "evolve" with `D'` as the "darc"
argument fails with an error and emits no state changes. -/
theorem ContractDarc_evolve_version (X : Externals) (coll : CollectionView)
    (oid : ObjectID) (args : Arguments) (sigs : List Bytes)
    (coins : List Coin) (newD D : Darc)
    (hnew : X.NewDarcFromProto (Arguments.Search args (go "darc")) = .ok newD)
    (hold : LoadDarcFromColl X coll (ObjectID.mk D.BaseID ZeroNonce).Slice = .ok D)
    (hbase : newD.BaseID = D.BaseID)
    (hver : newD.Version ≠ D.Version + 1) :
    ContractDarc X coll ⟨oid, .Invoke (go "evolve") args, sigs⟩ coins =
      ⟨[], [], some (go "VersionMismatch")⟩ := by
  rw [← hbase] at hold
  rw [ContractDarc_evolve_loaded X coll oid args sigs coins newD D hnew hold]
  simp [SanityCheck, hbase, hver]

theorem ContractDarc_evolve_version_witness :
    ContractDarc sampleExternals twoDarcStore.view
        ⟨⟨otherID, ZeroNonce⟩,
          .Invoke (go "evolve") [⟨go "darc", 2 :: 6 :: 6 :: otherID⟩], sampleSigs⟩ [] =
      ⟨[], [], some (go "VersionMismatch")⟩ :=
  ContractDarc_evolve_version sampleExternals twoDarcStore.view
    ⟨otherID, ZeroNonce⟩ [⟨go "darc", 2 :: 6 :: 6 :: otherID⟩] sampleSigs []
    ⟨2, otherID, [(go "evolve", [6])], [[6]]⟩
    ⟨0, otherID, [(go "evolve", [6])], [[6]]⟩ (by rfl) (by rfl) (by rfl) (by decide)

/-- C5. For every Invoke "evolve": `ContractDarc` succeeds if and only if the
"darc" argument decodes to a darc `newD`, `LoadDarcFromColl` succeeds at
`(newD.BaseID, ZeroNonce)` giving `oldD`, and `newD.SanityCheck(oldD)`
succeeds; and when it succeeds the result is exactly one state change, the
Update at `tx.ObjectID` of kind "darc" with the raw "darc" argument, and
applying it to a store and loading the darc at `tx.ObjectID` gives `newD`. -/
theorem ContractDarc_evolve_iff (X : Externals) (coll : CollectionView)
    (oid : ObjectID) (args : Arguments) (sigs : List Bytes)
    (coins : List Coin) :
    ((ContractDarc X coll ⟨oid, .Invoke (go "evolve") args, sigs⟩ coins).err = none ↔
      ∃ newD oldD,
        X.NewDarcFromProto (Arguments.Search args (go "darc")) = .ok newD ∧
        LoadDarcFromColl X coll (ObjectID.mk newD.BaseID ZeroNonce).Slice = .ok oldD ∧
        SanityCheck X newD oldD = none) ∧
    ((ContractDarc X coll ⟨oid, .Invoke (go "evolve") args, sigs⟩ coins).err = none →
      ContractDarc X coll ⟨oid, .Invoke (go "evolve") args, sigs⟩ coins =
        ⟨[⟨.Update, oid, go "darc", Arguments.Search args (go "darc")⟩], [], none⟩ ∧
      ∃ newD, X.NewDarcFromProto (Arguments.Search args (go "darc")) = .ok newD ∧
        ∀ s : Store, ∃ s1,
          applyStateChanges s
            (ContractDarc X coll ⟨oid, .Invoke (go "evolve") args, sigs⟩ coins).sc = .ok s1 ∧
          LoadDarcFromColl X s1.view oid.Slice = .ok newD) := by
  rw [ContractDarc_evolve_eq]
  cases hnew : X.NewDarcFromProto (Arguments.Search args (go "darc")) with
  | error e => simp
  | ok newD =>
    cases hold : LoadDarcFromColl X coll (ObjectID.mk newD.BaseID ZeroNonce).Slice with
    | error e => simp [hold]
    | ok oldD =>
      cases hs : SanityCheck X newD oldD with
      | some e => simp [hold, hs]
      | none =>
        simp only [hold, hs]
        refine ⟨?_, ?_⟩
        · simp [hold, hs]
        · intro _
          refine ⟨trivial, newD, rfl, ?_⟩
          intro s
          refine ⟨(oid.Slice, [.bytes (Arguments.Search args (go "darc")),
            .bytes (go "darc"), .bytes oid.DarcID]) :: s, rfl, ?_⟩
          rw [LoadDarcFromColl_view X _ oid.Slice (Arguments.Search args (go "darc"))
            [.bytes oid.DarcID] (by simp [Store.lookup])]
          exact hnew

theorem ContractDarc_evolve_iff_witness :
    ContractDarc sampleExternals twoDarcStore.view
        ⟨⟨otherID, ZeroNonce⟩, .Invoke (go "evolve") [⟨go "darc", otherEvolvedBuf⟩], sampleSigs⟩ [] =
      ⟨[⟨.Update, ⟨otherID, ZeroNonce⟩, go "darc",
          Arguments.Search [⟨go "darc", otherEvolvedBuf⟩] (go "darc")⟩], [], none⟩ ∧
    ∃ newD,
      sampleExternals.NewDarcFromProto
          (Arguments.Search [⟨go "darc", otherEvolvedBuf⟩] (go "darc")) = .ok newD ∧
      ∀ s : Store, ∃ s1,
        applyStateChanges s
          (ContractDarc sampleExternals twoDarcStore.view
            ⟨⟨otherID, ZeroNonce⟩,
              .Invoke (go "evolve") [⟨go "darc", otherEvolvedBuf⟩], sampleSigs⟩ []).sc = .ok s1 ∧
        LoadDarcFromColl sampleExternals s1.view (ObjectID.mk otherID ZeroNonce).Slice =
          .ok newD :=
  (ContractDarc_evolve_iff sampleExternals twoDarcStore.view ⟨otherID, ZeroNonce⟩
    [⟨go "darc", otherEvolvedBuf⟩] sampleSigs []).2 (by decide)

/-! ### Genesis -/

/-- C7, as the code has it.  For every Config spawn that succeeds, the first
state change is the Create at `GenesisReferenceID` and its value is the
`DarcID` of the key that the instruction targets; it is the `BaseID` of the
darc decoded from the "darc" argument exactly when the instruction targets
that `BaseID`. -/
theorem ContractConfig_genesis_reference (X : Externals) (cdb : CollectionView)
    (tx : Instruction) (coins : List Coin)
    (hok : (ContractConfig X cdb tx coins).err = none) :
    ∃ sc rest cid args d,
      (ContractConfig X cdb tx coins).sc = sc :: rest ∧
      sc.StateAction = .Create ∧ sc.ObjectID = GenesisReferenceID ∧
      sc.Value = tx.ObjectID.DarcID ∧
      tx.Op = .Spawn cid args ∧
      X.NewDarcFromProto (Arguments.Search args (go "darc")) = .ok d ∧
      (sc.Value = d.BaseID ↔ tx.ObjectID.DarcID = d.BaseID) := by
  obtain ⟨cid, args, d, configBuf, hop, hd, hr, hv, hi, he⟩ :=
    ContractConfig_ok_inv X cdb tx coins hok
  obtain ⟨oid, op, sigs⟩ := tx
  simp only at hop
  subst hop
  rw [ContractConfig_spawn_eq X cdb oid cid args sigs coins d configBuf hd hr hv hi he]
  exact ⟨_, _, cid, args, d, rfl, rfl, rfl, rfl, rfl, hd, Iff.rfl⟩

theorem ContractConfig_genesis_reference_witness :
    ∃ sc rest cid args d,
      (ContractConfig sampleExternals emptyView
        ⟨⟨sampleID, ZeroNonce⟩, .Spawn (go "config") sampleSpawnArgs, sampleSigs⟩ []).sc = sc :: rest ∧
      sc.StateAction = .Create ∧ sc.ObjectID = GenesisReferenceID ∧
      sc.Value = sampleID ∧
      Operation.Spawn (go "config") sampleSpawnArgs = .Spawn cid args ∧
      sampleExternals.NewDarcFromProto (Arguments.Search args (go "darc")) = .ok d ∧
      (sc.Value = d.BaseID ↔ sampleID = d.BaseID) :=
  ContractConfig_genesis_reference sampleExternals emptyView
    ⟨⟨sampleID, ZeroNonce⟩, .Spawn (go "config") sampleSpawnArgs, sampleSigs⟩ [] (by decide)

/-- C7 fails as stated: the spawn targets `(otherID, ZeroNonce)` with a darc
whose `BaseID` is `sampleID`; it succeeds and the value emitted at
`GenesisReferenceID` is `otherID`, not the `BaseID` of the darc. -/
theorem ContractConfig_genesis_reference_counterexample :
    sampleExternals.NewDarcFromProto (Arguments.Search sampleSpawnArgs (go "darc")) =
      .ok ⟨0, sampleID, [(go "evolve", [5])], [[5]]⟩ ∧
    ContractConfig sampleExternals emptyView
        ⟨⟨otherID, ZeroNonce⟩, .Spawn (go "config") sampleSpawnArgs, sampleSigs⟩ [] =
      ⟨[ ⟨.Create, GenesisReferenceID, go "config", otherID⟩,
         ⟨.Create, ⟨otherID, ZeroNonce⟩, go "darc", sampleDarcBuf⟩,
         ⟨.Create, ⟨otherID, OneNonce⟩, go "config", [0, 5, 0, 0, 0, 0, 0, 0, 0]⟩ ],
       [], none⟩ ∧
    otherID ≠ sampleID :=
  ⟨by rfl, by decide, by decide⟩

theorem key_ne_of_darcID_ne (P Q : Bytes) (n : Nonce) (h : P ≠ Q) :
    (ObjectID.mk P n).Slice ≠ (ObjectID.mk Q n).Slice := by
  intro e
  exact h ((List.append_left_inj n.val).mp e)

theorem key_ne_of_nonce_ne (P Q : Bytes) (m n : Nonce) (hl : P.length = Q.length)
    (h : m ≠ n) : (ObjectID.mk P m).Slice ≠ (ObjectID.mk Q n).Slice := by
  intro e
  exact h (Subtype.ext (List.append_inj e hl).2)

/-- No view lets both `LoadConfigFromColl` and `LoadDarcFromColl` at the key
`GenesisReferenceID` succeed: the first asks for a record of kind "config" at
that key and the second for a record of kind "darc". -/
theorem genesis_key_config_or_darc (X : Externals) (coll : CollectionView)
    (cfg : Config) (D : Darc)
    (hc : LoadConfigFromColl X coll = .ok cfg)
    (hd : LoadDarcFromColl X coll GenesisReferenceID.Slice = .ok D) : False := by
  unfold LoadConfigFromColl getValueContract at hc
  unfold LoadDarcFromColl at hd
  cases hg : coll.Get GenesisReferenceID.Slice with
  | error e => simp [hg] at hd
  | ok record =>
    cases hvs : record.Values with
    | error e => simp [hg, hvs] at hd
    | ok vs =>
      simp only [hg, hvs] at hc hd
      match vs, hc, hd with
      | [], hc, _ => simp at hc
      | [_], hc, _ => simp at hc
      | .other _ :: _ :: _, hc, _ => simp at hc
      | .bytes _ :: .other _ :: _, hc, _ => simp at hc
      | .bytes v :: .bytes c :: rest, hc, hd =>
        by_cases h1 : c = go "darc"
        · subst h1
          have : go "darc" ≠ ContractConfigID := by decide
          simp [this] at hc
        · simp only [List.get?_cons_succ, List.get?_cons_zero, ne_eq, h1,
            not_false_eq_true, if_true] at hd
          split at hd <;> cases hd

/-- C8, as the code has it.  Round trip of genesis: for every Config spawn that
succeeds on an instruction whose target is `(P, ZeroNonce)` with `P` a 32-byte
policy id other than `ZeroDarc`, darc `D` and block interval `i`, the three
Creates apply to the empty store, and on the resulting store
`LoadConfigFromColl` returns `Config{BlockInterval = i}` and `LoadDarcFromColl`
at the target key returns `D`, when decoding inverts the encoding of that
Config. -/
theorem ContractConfig_round_trip (X : Externals) (cdb : CollectionView)
    (P : Bytes) (cid : GoString) (args : Arguments) (sigs : List Bytes)
    (coins : List Coin)
    (D : Darc) (i : Int)
    (hP : P.length = 32) (hne : P ≠ ZeroDarc)
    (hok : (ContractConfig X cdb ⟨⟨P, ZeroNonce⟩, .Spawn cid args, sigs⟩ coins).err = none)
    (hD : X.NewDarcFromProto (Arguments.Search args (go "darc")) = .ok D)
    (hi : (Varint (Arguments.Search args (go "block_interval"))).1 = i)
    (hinv : ∀ buf, X.Encode ⟨i⟩ = .ok buf → X.Decode buf = .ok ⟨i⟩) :
    ∃ s,
      applyStateChanges []
        (ContractConfig X cdb ⟨⟨P, ZeroNonce⟩, .Spawn cid args, sigs⟩ coins).sc = .ok s ∧
      LoadConfigFromColl X s.view = .ok ⟨i⟩ ∧
      LoadDarcFromColl X s.view (ObjectID.mk P ZeroNonce).Slice = .ok D := by
  obtain ⟨cid1, args1, d, configBuf, hop, hd, hr, hv, hnz, he⟩ :=
    ContractConfig_ok_inv X cdb _ coins hok
  simp only [Operation.Spawn.injEq] at hop
  obtain ⟨_, rfl⟩ := hop
  rw [ContractConfig_spawn_eq X cdb ⟨P, ZeroNonce⟩ cid args sigs coins d configBuf hd hr hv hnz he]
  rw [hi] at he
  have hdec := hinv configBuf he
  have k1 : (ObjectID.mk ZeroDarc ZeroNonce).Slice ≠ (ObjectID.mk P ZeroNonce).Slice :=
    key_ne_of_darcID_ne ZeroDarc P ZeroNonce (Ne.symm hne)
  have k2 : (ObjectID.mk P ZeroNonce).Slice ≠ (ObjectID.mk P OneNonce).Slice :=
    key_ne_of_nonce_ne P P ZeroNonce OneNonce rfl (by decide)
  have k3 : (ObjectID.mk ZeroDarc ZeroNonce).Slice ≠ (ObjectID.mk P OneNonce).Slice :=
    key_ne_of_nonce_ne ZeroDarc P ZeroNonce OneNonce (by rw [hP]; rfl) (by decide)
  refine ⟨[ ((ObjectID.mk P OneNonce).Slice,
              [.bytes configBuf, .bytes (go "config"), .bytes P]),
            ((ObjectID.mk P ZeroNonce).Slice,
              [.bytes (Arguments.Search args (go "darc")), .bytes (go "darc"), .bytes P]),
            ((ObjectID.mk ZeroDarc ZeroNonce).Slice,
              [.bytes P, .bytes (go "config"), .bytes ZeroDarc]) ], ?_, ?_, ?_⟩
  · simp [applyStateChanges, applyStateChange, Store.lookup, k1, k2, k3,
      GenesisReferenceID]
  · have hcfg : (go "config") = ContractConfigID := rfl
    simp [LoadConfigFromColl, getValueContract, Store.view, Store.lookup,
      k1.symm, k2.symm, k3.symm, hP, hcfg, hdec, GenesisReferenceID]
  · rw [LoadDarcFromColl_view X _ _ (Arguments.Search args (go "darc")) [.bytes P]
      (by simp [Store.lookup, k2.symm])]
    rw [hd] at hD
    rw [hd, hD]

theorem ContractConfig_round_trip_witness :
    ∃ s,
      applyStateChanges []
        (ContractConfig sampleExternals emptyView
          ⟨⟨sampleID, ZeroNonce⟩, .Spawn (go "config") sampleSpawnArgs, sampleSigs⟩ []).sc = .ok s ∧
      LoadConfigFromColl sampleExternals s.view = .ok ⟨5⟩ ∧
      LoadDarcFromColl sampleExternals s.view (ObjectID.mk sampleID ZeroNonce).Slice =
        .ok ⟨0, sampleID, [(go "evolve", [5])], [[5]]⟩ :=
  ContractConfig_round_trip sampleExternals emptyView sampleID (go "config")
    sampleSpawnArgs sampleSigs [] ⟨0, sampleID, [(go "evolve", [5])], [[5]]⟩ 5
    (by decide) (by decide) (by decide) (by rfl) (by decide)
    (by
      intro buf h
      have e : sampleExternals.Encode ⟨5⟩ = .ok [0, 5, 0, 0, 0, 0, 0, 0, 0] := rfl
      rw [e] at h
      cases h
      rfl)

/-- C8 fails as stated at the 32-byte policy id `ZeroDarc`: the spawn that
targets `(ZeroDarc, ZeroNonce)` succeeds and the codec inverts the encoding of
its Config, but its second Create is at the key of the first,
`GenesisReferenceID`, so that the three Creates do not apply to the empty
store; and no store at all lets both loaders succeed, as they ask for records
of different kinds at that one key. -/
theorem ContractConfig_round_trip_counterexample :
    ZeroDarc.length = 32 ∧
    ContractConfig sampleExternals emptyView
        ⟨⟨ZeroDarc, ZeroNonce⟩, .Spawn (go "config") sampleSpawnArgs, sampleSigs⟩ [] =
      ⟨[ ⟨.Create, GenesisReferenceID, go "config", ZeroDarc⟩,
         ⟨.Create, ⟨ZeroDarc, ZeroNonce⟩, go "darc", sampleDarcBuf⟩,
         ⟨.Create, ⟨ZeroDarc, OneNonce⟩, go "config", [0, 5, 0, 0, 0, 0, 0, 0, 0]⟩ ],
       [], none⟩ ∧
    sampleExternals.Decode [0, 5, 0, 0, 0, 0, 0, 0, 0] = .ok ⟨5⟩ ∧
    applyStateChanges []
        (ContractConfig sampleExternals emptyView
          ⟨⟨ZeroDarc, ZeroNonce⟩, .Spawn (go "config") sampleSpawnArgs, sampleSigs⟩ []).sc =
      .error (go "duplicate Create") ∧
    ∀ (coll : CollectionView) (cfg : Config) (D : Darc),
      ¬ (LoadConfigFromColl sampleExternals coll = .ok cfg ∧
         LoadDarcFromColl sampleExternals coll (ObjectID.mk ZeroDarc ZeroNonce).Slice =
           .ok D) :=
  ⟨by decide, by decide, by rfl, by rfl,
    fun coll cfg D h => genesis_key_config_or_darc sampleExternals coll cfg D h.1 h.2⟩

/-! ### Commands of `ContractDarc` -/

/-- The branches of `ContractDarc` for a command other than "evolve". -/
theorem ContractDarc_other_command (X : Externals) (coll : CollectionView)
    (oid : ObjectID) (command : GoString) (args : Arguments) (sigs : List Bytes)
    (coins : List Coin)
    (h : command ≠ go "evolve") :
    ContractDarc X coll ⟨oid, .Invoke command args, sigs⟩ coins =
      if command = go "add" then ⟨[], [], some (go "not implemented")⟩
      else ⟨[], [], some (go "invalid command: " ++ command)⟩ := by
  simp only [ContractDarc, Instruction.getType, ne_eq, not_true_eq_false, if_false, h]

/-- C11. For every Invoke instruction given to `ContractDarc`: the command
"add" fails with the error "not implemented"; a command other than "evolve"
and "add" fails with the error "invalid command: " followed by that command;
in both cases no state changes are emitted, and the result is the same for
every view, so that the store is not read. -/
theorem ContractDarc_add_and_invalid (X : Externals) (coll : CollectionView)
    (oid : ObjectID) (command : GoString) (args : Arguments) (sigs : List Bytes)
    (coins : List Coin) :
    (command = go "add" →
      ContractDarc X coll ⟨oid, .Invoke command args, sigs⟩ coins =
        ⟨[], [], some (go "not implemented")⟩) ∧
    (command ≠ go "evolve" → command ≠ go "add" →
      ContractDarc X coll ⟨oid, .Invoke command args, sigs⟩ coins =
        ⟨[], [], some (go "invalid command: " ++ command)⟩) := by
  constructor
  · intro hadd
    have hne : command ≠ go "evolve" := by
      rw [hadd]
      decide
    rw [ContractDarc_other_command X coll oid command args sigs coins hne, if_pos hadd]
  · intro hne hnadd
    rw [ContractDarc_other_command X coll oid command args sigs coins hne, if_neg hnadd]

theorem ContractDarc_add_and_invalid_witness :
    ContractDarc sampleExternals twoDarcStore.view
        ⟨⟨otherID, ZeroNonce⟩, .Invoke (go "add") [⟨go "darc", otherEvolvedBuf⟩], sampleSigs⟩ [] =
      ⟨[], [], some (go "not implemented")⟩ ∧
    ContractDarc sampleExternals twoDarcStore.view
        ⟨⟨otherID, ZeroNonce⟩, .Invoke (go "remove") [⟨go "darc", otherEvolvedBuf⟩], sampleSigs⟩ [] =
      ⟨[], [], some (go "invalid command: " ++ go "remove")⟩ :=
  ⟨(ContractDarc_add_and_invalid sampleExternals twoDarcStore.view ⟨otherID, ZeroNonce⟩
      (go "add") [⟨go "darc", otherEvolvedBuf⟩] sampleSigs []).1 rfl,
   (ContractDarc_add_and_invalid sampleExternals twoDarcStore.view ⟨otherID, ZeroNonce⟩
      (go "remove") [⟨go "darc", otherEvolvedBuf⟩] sampleSigs []).2 (by decide) (by decide)⟩

/-! ### `LoadBlockIntervalFromColl` -/

/-- C19. For every view, `LoadBlockIntervalFromColl` returns
`(c.BlockInterval, nil)` when `LoadConfigFromColl` returns a Config `c`, and
`(defaultInterval, err)` with the same error when `LoadConfigFromColl` fails
with `err`; whenever it returns an error the interval is `defaultInterval`,
not one read from the store. -/
theorem LoadBlockIntervalFromColl_spec (X : Externals) (defaultInterval : Int)
    (coll : CollectionView) :
    (∀ c, LoadConfigFromColl X coll = .ok c →
      LoadBlockIntervalFromColl X defaultInterval coll = (c.BlockInterval, none)) ∧
    (∀ err, LoadConfigFromColl X coll = .error err →
      LoadBlockIntervalFromColl X defaultInterval coll = (defaultInterval, some err)) ∧
    ((LoadBlockIntervalFromColl X defaultInterval coll).2 ≠ none →
      (LoadBlockIntervalFromColl X defaultInterval coll).1 = defaultInterval) := by
  unfold LoadBlockIntervalFromColl
  cases h : LoadConfigFromColl X coll with
  | error e =>
    refine ⟨?_, ?_, ?_⟩
    · intro c hc
      cases hc
    · intro err herr
      cases herr
      rfl
    · intro _
      rfl
  | ok cfg =>
    refine ⟨?_, ?_, ?_⟩
    · intro c hc
      cases hc
      rfl
    · intro err herr
      cases herr
    · intro hne
      exact absurd rfl hne

theorem LoadBlockIntervalFromColl_spec_witness :
    LoadBlockIntervalFromColl sampleExternals 1000 genesisStore.view = (5, none) ∧
    LoadBlockIntervalFromColl sampleExternals 1000 emptyView =
      (1000, some (go "NotFound")) :=
  ⟨(LoadBlockIntervalFromColl_spec sampleExternals 1000 genesisStore.view).1 ⟨5⟩ (by rfl),
   (LoadBlockIntervalFromColl_spec sampleExternals 1000 emptyView).2.1 (go "NotFound")
     (by rfl)⟩

/-! ### The loaders -/

/-- When `LoadConfigFromColl` returns a Config. -/
theorem LoadConfigFromColl_ok_iff (X : Externals) (coll : CollectionView)
    (cfg : Config) :
    LoadConfigFromColl X coll = .ok cfg ↔
      ∃ g v,
        getValueContract coll GenesisReferenceID.Slice = .ok (g, go "config") ∧
        g.length = 32 ∧
        getValueContract coll (ObjectID.mk g OneNonce).Slice = .ok (v, go "config") ∧
        X.Decode v = .ok cfg := by
  have hcfg : ContractConfigID = go "config" := rfl
  unfold LoadConfigFromColl
  cases h1 : getValueContract coll GenesisReferenceID.Slice with
  | error e => simp
  | ok p1 =>
    obtain ⟨g, c1⟩ := p1
    by_cases hc1 : c1 = go "config"
    · subst hc1
      by_cases hlen : g.length = 32
      · simp only [hcfg, ne_eq, not_true_eq_false, if_false, hlen]
        cases h2 : getValueContract coll (ObjectID.mk g OneNonce).Slice with
        | error e =>
          constructor
          · intro h
            cases h
          · rintro ⟨g1, v, hg, _, hv, _⟩
            cases hg
            rw [h2] at hv
            cases hv
        | ok p2 =>
          obtain ⟨v, c2⟩ := p2
          by_cases hc2 : c2 = go "config"
          · subst hc2
            simp only [not_true_eq_false, if_false]
            cases hdec : X.Decode v with
            | error e =>
              constructor
              · intro h
                cases h
              · rintro ⟨g1, v1, hg, _, hv, hd⟩
                cases hg
                rw [h2] at hv
                cases hv
                rw [hdec] at hd
                cases hd
            | ok cfg1 =>
              constructor
              · intro h
                cases h
                exact ⟨g, v, rfl, hlen, h2, hdec⟩
              · rintro ⟨g1, v1, hg, _, hv, hd⟩
                cases hg
                rw [h2] at hv
                cases hv
                rw [hdec] at hd
                cases hd
                rfl
          · simp only [hc2, not_false_eq_true, if_true]
            constructor
            · intro h
              cases h
            · rintro ⟨g1, v1, hg, _, hv, _⟩
              cases hg
              rw [h2] at hv
              cases hv
              exact absurd rfl hc2
      · simp only [hcfg, ne_eq, not_true_eq_false, if_false, hlen, not_false_eq_true,
          if_true]
        constructor
        · intro h
          cases h
        · rintro ⟨g1, v, hg, hl, _, _⟩
          cases hg
          exact absurd hl hlen
    · simp only [hcfg, ne_eq, hc1, not_false_eq_true, if_true]
      constructor
      · intro h
        cases h
      · rintro ⟨g1, v, hg, _, _, _⟩
        cases hg
        exact absurd rfl hc1

/-- C12. `LoadConfigFromColl` is a read in two steps: it returns a Config
without error if and only if the record at `GenesisReferenceID` has the kind
"config" and a value `g` of exactly 32 bytes, and the record at
`(g, OneNonce)` has the kind "config" and a value that decodes as a Config,
which is then the Config returned; in every other case it returns an error
and no Config. -/
theorem LoadConfigFromColl_two_steps (X : Externals) (coll : CollectionView) :
    (∀ cfg, LoadConfigFromColl X coll = .ok cfg ↔
      ∃ g v,
        getValueContract coll GenesisReferenceID.Slice = .ok (g, go "config") ∧
        g.length = 32 ∧
        getValueContract coll (ObjectID.mk g OneNonce).Slice = .ok (v, go "config") ∧
        X.Decode v = .ok cfg) ∧
    ((¬ ∃ g v cfg,
        getValueContract coll GenesisReferenceID.Slice = .ok (g, go "config") ∧
        g.length = 32 ∧
        getValueContract coll (ObjectID.mk g OneNonce).Slice = .ok (v, go "config") ∧
        X.Decode v = .ok cfg) →
      ∃ err, LoadConfigFromColl X coll = .error err) := by
  refine ⟨fun cfg => LoadConfigFromColl_ok_iff X coll cfg, ?_⟩
  intro hno
  cases h : LoadConfigFromColl X coll with
  | error e => exact ⟨e, rfl⟩
  | ok cfg =>
    obtain ⟨g, v, h1, h2, h3, h4⟩ := (LoadConfigFromColl_ok_iff X coll cfg).mp h
    exact absurd ⟨g, v, cfg, h1, h2, h3, h4⟩ hno

theorem LoadConfigFromColl_two_steps_witness :
    ∃ g v,
      getValueContract genesisStore.view GenesisReferenceID.Slice = .ok (g, go "config") ∧
      g.length = 32 ∧
      getValueContract genesisStore.view (ObjectID.mk g OneNonce).Slice =
        .ok (v, go "config") ∧
      sampleExternals.Decode v = .ok ⟨5⟩ :=
  ((LoadConfigFromColl_two_steps sampleExternals genesisStore.view).1 ⟨5⟩).mp (by rfl)

/-- C13. `LoadDarcFromColl(coll, key)` returns a darc without error if and only
if the record at `key` exists, has at least two values, its second value is
the byte string "darc", its first value is a byte string, and that byte string
decodes as a darc, which is then the result.  A record whose second value is
not the byte string "darc" is rejected with an error, and a record with fewer
than two values is rejected with "not enough records". -/
theorem LoadDarcFromColl_checks_kind (X : Externals) (coll : CollectionView)
    (key : Bytes) :
    (∀ d, LoadDarcFromColl X coll key = .ok d ↔
      ∃ record buf rest,
        coll.Get key = .ok record ∧
        record.Values = .ok (.bytes buf :: .bytes (go "darc") :: rest) ∧
        X.NewDarcFromProto buf = .ok d) ∧
    (∀ record vs, coll.Get key = .ok record → record.Values = .ok vs →
      vs.get? 1 ≠ some (.bytes (go "darc")) →
      ∃ err, LoadDarcFromColl X coll key = .error err) ∧
    (∀ record vs contractBuf, coll.Get key = .ok record → record.Values = .ok vs →
      vs.get? 1 = some (.bytes contractBuf) → contractBuf ≠ go "darc" →
      LoadDarcFromColl X coll key =
        .error (go "expected contract to be darc but got: " ++ contractBuf)) ∧
    (∀ record vs, coll.Get key = .ok record → record.Values = .ok vs →
      vs.length < 2 →
      LoadDarcFromColl X coll key = .error (go "not enough records")) := by
  refine ⟨fun d => LoadDarcFromColl_ok_iff X coll key d, ?_, ?_, ?_⟩
  · intro record vs hg hv hkind
    cases h : LoadDarcFromColl X coll key with
    | error e => exact ⟨e, rfl⟩
    | ok d =>
      obtain ⟨record1, buf, rest, h1, h2, _⟩ := (LoadDarcFromColl_ok_iff X coll key d).mp h
      rw [hg] at h1
      cases h1
      rw [hv] at h2
      cases h2
      exact absurd rfl hkind
  · intro record vs contractBuf hg hv hkind hne
    rw [LoadDarcFromColl_values X coll key record vs hg hv]
    have hlen : ¬ vs.length < 2 := by
      intro hlt
      have : vs.get? 1 = none := List.get?_eq_none.mpr (by omega)
      rw [this] at hkind
      cases hkind
    simp only [hlen, if_false, hkind, ne_eq, hne, not_false_eq_true, if_true]
  · intro record vs hg hv hlt
    rw [LoadDarcFromColl_values X coll key record vs hg hv]
    simp [hlt]

theorem LoadDarcFromColl_checks_kind_witness :
    ∃ err, LoadDarcFromColl sampleExternals genesisStore.view
      GenesisReferenceID.Slice = .error err :=
  (LoadDarcFromColl_checks_kind sampleExternals genesisStore.view
      GenesisReferenceID.Slice).2.1
    ⟨.ok [.bytes sampleID, .bytes (go "config"), .bytes ZeroDarc]⟩
    [.bytes sampleID, .bytes (go "config"), .bytes ZeroDarc] (by rfl) (by rfl)
    (by decide)

/-! ### The shape of the results -/

/-- A run of `ContractConfig` returns an error alone or three state changes
alone, and nil coins. -/
theorem ContractConfig_cases (X : Externals) (cdb : CollectionView)
    (tx : Instruction) (coins : List Coin) :
    (∃ e, ContractConfig X cdb tx coins = ⟨[], [], some e⟩) ∨
    (∃ a b c, ContractConfig X cdb tx coins = ⟨[a, b, c], [], none⟩) := by
  cases herr : (ContractConfig X cdb tx coins).err with
  | none =>
    right
    obtain ⟨cid, args, d, configBuf, hop, hd, hr, hv, hi, he⟩ :=
      ContractConfig_ok_inv X cdb tx coins herr
    obtain ⟨oid, op, sigs⟩ := tx
    simp only at hop
    subst hop
    exact ⟨_, _, _, ContractConfig_spawn_eq X cdb oid cid args sigs coins d configBuf hd hr hv
      hi he⟩
  | some e =>
    left
    have hne : (ContractConfig X cdb tx coins).err ≠ none := by
      rw [herr]
      exact Option.some_ne_none e
    obtain ⟨hsc, hc⟩ := ContractConfig_err_nil X cdb tx coins hne
    refine ⟨e, ?_⟩
    cases hres : ContractConfig X cdb tx coins with
    | mk sc c err =>
      rw [hres] at hsc hc herr
      simp only at hsc hc herr
      rw [hsc, hc, herr]

/-- A run of `ContractDarc` returns an error alone or one Update at the target
of the instruction alone, and nil coins. -/
theorem ContractDarc_cases (X : Externals) (coll : CollectionView)
    (tx : Instruction) (coins : List Coin) :
    (∃ e, ContractDarc X coll tx coins = ⟨[], [], some e⟩) ∨
    (∃ buf, ContractDarc X coll tx coins =
      ⟨[⟨.Update, tx.ObjectID, go "darc", buf⟩], [], none⟩) := by
  obtain ⟨oid, op, sigs⟩ := tx
  cases op with
  | Spawn cid args =>
    left
    exact ⟨go "Darc can only be invoked (evolved)",
      by simp [ContractDarc, Instruction.getType]⟩
  | Delete =>
    left
    exact ⟨go "Darc can only be invoked (evolved)",
      by simp [ContractDarc, Instruction.getType]⟩
  | Invoke command args =>
    by_cases hcmd : command = go "evolve"
    · subst hcmd
      cases hnew : X.NewDarcFromProto (Arguments.Search args (go "darc")) with
      | error e =>
        left
        refine ⟨e, ?_⟩
        rw [ContractDarc_evolve_eq]
        simp only [hnew]
      | ok newD =>
        cases hold : LoadDarcFromColl X coll (ObjectID.mk newD.BaseID ZeroNonce).Slice with
        | error e =>
          left
          refine ⟨e, ?_⟩
          rw [ContractDarc_evolve_eq]
          simp only [hnew, hold]
        | ok oldD =>
          rw [ContractDarc_evolve_loaded X coll oid args sigs coins newD oldD hnew hold]
          cases SanityCheck X newD oldD with
          | some e => exact Or.inl ⟨e, rfl⟩
          | none => exact Or.inr ⟨_, rfl⟩
    · left
      rw [ContractDarc_other_command X coll oid command args sigs coins hcmd]
      by_cases hadd : command = go "add"
      · exact ⟨_, by rw [if_pos hadd]⟩
      · exact ⟨_, by rw [if_neg hadd]⟩

/-- C17. Error atomicity: for every view, instruction and coins, each of
`ContractConfig` and `ContractDarc` returns either a non-empty list of state
changes and no error, or an error and a nil list of state changes.  On the
paths of `ContractConfig` that return through the named results (darc decode
failure, `Verify` failure, zero interval, Config encode failure) the error is
set and the state changes are nil. -/
theorem handlers_error_atomicity (X : Externals) (coll : CollectionView)
    (tx : Instruction) (coins : List Coin) :
    (((ContractConfig X coll tx coins).err = none ∧
        (ContractConfig X coll tx coins).sc ≠ []) ∨
      ((ContractConfig X coll tx coins).err ≠ none ∧
        (ContractConfig X coll tx coins).sc = [])) ∧
    (((ContractDarc X coll tx coins).err = none ∧
        (ContractDarc X coll tx coins).sc ≠ []) ∨
      ((ContractDarc X coll tx coins).err ≠ none ∧
        (ContractDarc X coll tx coins).sc = [])) ∧
    (∀ cid args, tx.Op = .Spawn cid args →
      (∀ e, X.NewDarcFromProto (Arguments.Search args (go "darc")) = .error e →
        ContractConfig X coll tx coins = ⟨[], [], some e⟩) ∧
      (∀ d e, X.NewDarcFromProto (Arguments.Search args (go "darc")) = .ok d →
        d.Rules ≠ [] → X.Verify d true = some e →
        ContractConfig X coll tx coins = ⟨[], [], some e⟩) ∧
      (∀ d, X.NewDarcFromProto (Arguments.Search args (go "darc")) = .ok d →
        d.Rules ≠ [] → X.Verify d true = none →
        (Varint (Arguments.Search args (go "block_interval"))).1 = 0 →
        ContractConfig X coll tx coins = ⟨[], [], some (go "block interval is zero")⟩) ∧
      (∀ d e, X.NewDarcFromProto (Arguments.Search args (go "darc")) = .ok d →
        d.Rules ≠ [] → X.Verify d true = none →
        (Varint (Arguments.Search args (go "block_interval"))).1 ≠ 0 →
        X.Encode ⟨(Varint (Arguments.Search args (go "block_interval"))).1⟩ = .error e →
        ContractConfig X coll tx coins = ⟨[], [], some e⟩)) := by
  refine ⟨?_, ?_, ?_⟩
  · rcases ContractConfig_cases X coll tx coins with ⟨e, h⟩ | ⟨a, b, c, h⟩
    · right
      rw [h]
      exact ⟨Option.some_ne_none e, rfl⟩
    · left
      rw [h]
      exact ⟨rfl, List.cons_ne_nil _ _⟩
  · rcases ContractDarc_cases X coll tx coins with ⟨e, h⟩ | ⟨buf, h⟩
    · right
      rw [h]
      exact ⟨Option.some_ne_none e, rfl⟩
    · left
      rw [h]
      exact ⟨rfl, List.cons_ne_nil _ _⟩
  · intro cid args hop
    obtain ⟨oid, op, sigs⟩ := tx
    simp only at hop
    subst hop
    have hlen : ∀ d : Darc, d.Rules ≠ [] → ¬ d.Rules.length = 0 := by
      intro d hr h0
      exact hr (List.length_eq_zero.mp h0)
    refine ⟨?_, ?_, ?_, ?_⟩
    · intro e hd
      simp only [ContractConfig, Instruction.getType, ne_eq, not_true_eq_false,
        if_false, hd]
    · intro d e hd hr hv
      simp only [ContractConfig, Instruction.getType, ne_eq, not_true_eq_false,
        if_false, hd, hlen d hr, hv]
    · intro d hd hr hv hi
      simp only [ContractConfig, Instruction.getType, ne_eq, not_true_eq_false,
        if_false, if_true, hd, hlen d hr, hv, hi]
    · intro d e hd hr hv hi he
      simp only [ContractConfig, Instruction.getType, ne_eq, not_true_eq_false,
        if_false, hd, hlen d hr, hv, hi, he]

theorem handlers_error_atomicity_witness :
    ContractConfig sampleExternals emptyView
        ⟨⟨sampleID, ZeroNonce⟩,
          .Spawn (go "config") [⟨go "darc", sampleDarcBuf⟩, ⟨go "block_interval", [0]⟩], sampleSigs⟩ [] =
      ⟨[], [], some (go "block interval is zero")⟩ :=
  ((handlers_error_atomicity sampleExternals emptyView
      ⟨⟨sampleID, ZeroNonce⟩,
        .Spawn (go "config") [⟨go "darc", sampleDarcBuf⟩, ⟨go "block_interval", [0]⟩], sampleSigs⟩
      []).2.2 (go "config") [⟨go "darc", sampleDarcBuf⟩, ⟨go "block_interval", [0]⟩]
      rfl).2.2.1 ⟨0, sampleID, [(go "evolve", [5])], [[5]]⟩ (by rfl) (by decide) (by rfl)
    (by decide)

/-! ### The block interval -/

/-- C14, as the code has it.  For every Config spawn that succeeds, the Config
encoded in the third state change has a `BlockInterval` different from zero:
it is the value that `Varint` reads from the "block_interval" argument, and
the handler rejects zero only. -/
theorem ContractConfig_interval_nonzero (X : Externals) (cdb : CollectionView)
    (tx : Instruction) (coins : List Coin)
    (hok : (ContractConfig X cdb tx coins).err = none) :
    ∃ a b cid args config configBuf,
      tx.Op = .Spawn cid args ∧
      (ContractConfig X cdb tx coins).sc =
        [a, b, ⟨.Create, ⟨tx.ObjectID.DarcID, OneNonce⟩, go "config", configBuf⟩] ∧
      X.Encode config = .ok configBuf ∧
      config.BlockInterval = (Varint (Arguments.Search args (go "block_interval"))).1 ∧
      config.BlockInterval ≠ 0 := by
  obtain ⟨cid, args, d, configBuf, hop, hd, hr, hv, hi, he⟩ :=
    ContractConfig_ok_inv X cdb tx coins hok
  obtain ⟨oid, op, sigs⟩ := tx
  simp only at hop
  subst hop
  rw [ContractConfig_spawn_eq X cdb oid cid args sigs coins d configBuf hd hr hv hi he]
  exact ⟨_, _, cid, args, _, configBuf, rfl, rfl, he, rfl, hi⟩

theorem ContractConfig_interval_nonzero_witness :
    ∃ a b cid args config configBuf,
      Operation.Spawn (go "config") sampleSpawnArgs = .Spawn cid args ∧
      (ContractConfig sampleExternals emptyView
          ⟨⟨sampleID, ZeroNonce⟩, .Spawn (go "config") sampleSpawnArgs, sampleSigs⟩ []).sc =
        [a, b, ⟨.Create, ⟨sampleID, OneNonce⟩, go "config", configBuf⟩] ∧
      sampleExternals.Encode config = .ok configBuf ∧
      config.BlockInterval = (Varint (Arguments.Search args (go "block_interval"))).1 ∧
      config.BlockInterval ≠ 0 :=
  ContractConfig_interval_nonzero sampleExternals emptyView
    ⟨⟨sampleID, ZeroNonce⟩, .Spawn (go "config") sampleSpawnArgs, sampleSigs⟩ [] (by decide)

/-- C14 fails as stated: the "block_interval" argument `[1]` is the varint of
`-1`; the spawn succeeds and the third state change carries the encoding of
`Config{BlockInterval = -1}`. -/
theorem ContractConfig_interval_counterexample :
    Varint [1] = (-1, 1) ∧
    ContractConfig sampleExternals emptyView
        ⟨⟨sampleID, ZeroNonce⟩,
          .Spawn (go "config") [⟨go "darc", sampleDarcBuf⟩, ⟨go "block_interval", [1]⟩], sampleSigs⟩ [] =
      ⟨[ ⟨.Create, GenesisReferenceID, go "config", sampleID⟩,
         ⟨.Create, ⟨sampleID, ZeroNonce⟩, go "darc", sampleDarcBuf⟩,
         ⟨.Create, ⟨sampleID, OneNonce⟩, go "config", [1, 1, 0, 0, 0, 0, 0, 0, 0]⟩ ],
       [], none⟩ ∧
    sampleExternals.Encode ⟨-1⟩ = .ok [1, 1, 0, 0, 0, 0, 0, 0, 0] ∧
    sampleExternals.Decode [1, 1, 0, 0, 0, 0, 0, 0, 0] = .ok ⟨-1⟩ ∧
    ¬ (0 < (⟨-1⟩ : Config).BlockInterval) :=
  ⟨by decide, by decide, by rfl, by rfl, by decide⟩

/-! ### The command constant -/

/-- C15 fails on the code: `CmdDarcEvolve` is "Evolve" and `ContractDarc`
compares the command with "evolve".  With the command `CmdDarcEvolve` and a
valid evolution of the stored darc, the handler returns "invalid command:
Evolve" and no state change; the same instruction with the command "evolve"
emits the Update. -/
theorem ContractDarc_CmdDarcEvolve_rejected :
    CmdDarcEvolve = go "Evolve" ∧ CmdDarcEvolve ≠ go "evolve" ∧
    ContractDarc sampleExternals twoDarcStore.view
        ⟨⟨otherID, ZeroNonce⟩, .Invoke CmdDarcEvolve [⟨go "darc", otherEvolvedBuf⟩], sampleSigs⟩ [] =
      ⟨[], [], some (go "invalid command: Evolve")⟩ ∧
    ContractDarc sampleExternals twoDarcStore.view
        ⟨⟨otherID, ZeroNonce⟩, .Invoke (go "evolve") [⟨go "darc", otherEvolvedBuf⟩], sampleSigs⟩ [] =
      ⟨[⟨.Update, ⟨otherID, ZeroNonce⟩, go "darc", otherEvolvedBuf⟩], [], none⟩ :=
  ⟨rfl, by decide, by decide, by decide⟩

/-! ### Coins -/

/-- C16, as the code has it.  For every successful execution of
`ContractConfig` or `ContractDarc` with input coins `c`, the coins returned
are nil, whatever `c` is; they equal `c` exactly when `c` is empty. -/
theorem handlers_return_nil_coins (X : Externals) (coll : CollectionView)
    (tx : Instruction) (coins : List Coin) :
    ((ContractConfig X coll tx coins).err = none →
      (ContractConfig X coll tx coins).c = [] ∧
      ((ContractConfig X coll tx coins).c = coins ↔ coins = [])) ∧
    ((ContractDarc X coll tx coins).err = none →
      (ContractDarc X coll tx coins).c = [] ∧
      ((ContractDarc X coll tx coins).c = coins ↔ coins = [])) := by
  have hc : (ContractConfig X coll tx coins).c = [] := by
    rcases ContractConfig_cases X coll tx coins with ⟨e, h⟩ | ⟨a, b, c, h⟩ <;> rw [h]
  have hd : (ContractDarc X coll tx coins).c = [] := by
    rcases ContractDarc_cases X coll tx coins with ⟨e, h⟩ | ⟨buf, h⟩ <;> rw [h]
  constructor
  · intro _
    refine ⟨hc, ?_⟩
    rw [hc]
    exact eq_comm
  · intro _
    refine ⟨hd, ?_⟩
    rw [hd]
    exact eq_comm

theorem handlers_return_nil_coins_witness :
    (ContractConfig sampleExternals emptyView
        ⟨⟨sampleID, ZeroNonce⟩, .Spawn (go "config") sampleSpawnArgs, sampleSigs⟩ [⟨[1], 10⟩]).c = [] ∧
      ((ContractConfig sampleExternals emptyView
        ⟨⟨sampleID, ZeroNonce⟩, .Spawn (go "config") sampleSpawnArgs, sampleSigs⟩ [⟨[1], 10⟩]).c =
          [⟨[1], 10⟩] ↔ [(⟨[1], 10⟩ : Coin)] = []) :=
  (handlers_return_nil_coins sampleExternals emptyView
    ⟨⟨sampleID, ZeroNonce⟩, .Spawn (go "config") sampleSpawnArgs, sampleSigs⟩ [⟨[1], 10⟩]).1
    (by decide)

/-- C16 fails as stated: a successful Config spawn and a successful darc
evolution, each run with one coin, return no coin. -/
theorem handlers_coins_counterexample :
    (ContractConfig sampleExternals emptyView
        ⟨⟨sampleID, ZeroNonce⟩, .Spawn (go "config") sampleSpawnArgs, sampleSigs⟩ [⟨[1], 10⟩]).err =
      none ∧
    (ContractConfig sampleExternals emptyView
        ⟨⟨sampleID, ZeroNonce⟩, .Spawn (go "config") sampleSpawnArgs, sampleSigs⟩ [⟨[1], 10⟩]).c ≠
      [⟨[1], 10⟩] ∧
    (ContractDarc sampleExternals twoDarcStore.view
        ⟨⟨otherID, ZeroNonce⟩, .Invoke (go "evolve") [⟨go "darc", otherEvolvedBuf⟩], sampleSigs⟩
        [⟨[1], 10⟩]).err = none ∧
    (ContractDarc sampleExternals twoDarcStore.view
        ⟨⟨otherID, ZeroNonce⟩, .Invoke (go "evolve") [⟨go "darc", otherEvolvedBuf⟩], sampleSigs⟩
        [⟨[1], 10⟩]).c ≠ [⟨[1], 10⟩] :=
  ⟨by decide, by decide, by decide, by decide⟩

/-! ### The keys of the genesis state changes -/

/-- Two object ids have the same key exactly when they are equal: the nonce
has a fixed length. -/
theorem Slice_eq_iff (a b : ObjectID) : a.Slice = b.Slice ↔ a = b := by
  constructor
  · intro h
    obtain ⟨P, m⟩ := a
    obtain ⟨Q, n⟩ := b
    have hl : m.val.length = n.val.length := by rw [m.property, n.property]
    obtain ⟨h1, h2⟩ := List.append_inj' h hl
    have h3 : m = n := Subtype.ext h2
    have h4 : P = Q := h1
    rw [h4, h3]
  · intro h
    rw [h]

/-- C18. For every successful Config spawn with target `(P, I)`, the three
Creates are at `GenesisReferenceID = (ZeroDarc, ZeroNonce)`, `(P, I)` and
`(P, OneNonce)`, in this order, and these keys are pairwise distinct, as
object ids and as byte keys, if and only if `I ≠ OneNonce` and
`(P, I) ≠ (ZeroDarc, ZeroNonce)`; the handler does not look at the target:
the same spawn succeeds for every target. -/
theorem ContractConfig_keys_distinct_iff (X : Externals) (cdb : CollectionView)
    (P : Bytes) (I : Nonce) (cid : GoString) (args : Arguments) (sigs : List Bytes)
    (coins : List Coin)
    (hok : (ContractConfig X cdb ⟨⟨P, I⟩, .Spawn cid args, sigs⟩ coins).err = none) :
    (ContractConfig X cdb ⟨⟨P, I⟩, .Spawn cid args, sigs⟩ coins).sc.map
        (fun sc => (sc.StateAction, sc.ObjectID)) =
      [(.Create, GenesisReferenceID), (.Create, ⟨P, I⟩), (.Create, ⟨P, OneNonce⟩)] ∧
    ((GenesisReferenceID ≠ ⟨P, I⟩ ∧ GenesisReferenceID ≠ ⟨P, OneNonce⟩ ∧
        (⟨P, I⟩ : ObjectID) ≠ ⟨P, OneNonce⟩) ↔
      (I ≠ OneNonce ∧ (⟨P, I⟩ : ObjectID) ≠ ⟨ZeroDarc, ZeroNonce⟩)) ∧
    ((GenesisReferenceID.Slice ≠ (ObjectID.mk P I).Slice ∧
        GenesisReferenceID.Slice ≠ (ObjectID.mk P OneNonce).Slice ∧
        (ObjectID.mk P I).Slice ≠ (ObjectID.mk P OneNonce).Slice) ↔
      (I ≠ OneNonce ∧ (⟨P, I⟩ : ObjectID) ≠ ⟨ZeroDarc, ZeroNonce⟩)) ∧
    (∀ oid, (ContractConfig X cdb ⟨oid, .Spawn cid args, sigs⟩ coins).err = none) := by
  obtain ⟨cid1, args1, d, configBuf, hop, hd, hr, hv, hi, he⟩ :=
    ContractConfig_ok_inv X cdb _ coins hok
  simp only [Operation.Spawn.injEq] at hop
  obtain ⟨_, rfl⟩ := hop
  have hids : (GenesisReferenceID ≠ ⟨P, I⟩ ∧ GenesisReferenceID ≠ ⟨P, OneNonce⟩ ∧
        (⟨P, I⟩ : ObjectID) ≠ ⟨P, OneNonce⟩) ↔
      (I ≠ OneNonce ∧ (⟨P, I⟩ : ObjectID) ≠ ⟨ZeroDarc, ZeroNonce⟩) := by
    constructor
    · rintro ⟨h1, _, h3⟩
      refine ⟨?_, ?_⟩
      · intro hI
        exact h3 (by rw [hI])
      · intro hG
        exact h1 hG.symm
    · rintro ⟨hI, hG⟩
      refine ⟨?_, ?_, ?_⟩
      · intro h
        exact hG h.symm
      · intro h
        have hn : ZeroNonce = OneNonce := by
          have := congrArg ObjectID.InstanceID h
          exact this
        exact absurd hn (by decide)
      · intro h
        exact hI (congrArg ObjectID.InstanceID h)
  refine ⟨?_, hids, ?_, ?_⟩
  · rw [ContractConfig_spawn_eq X cdb ⟨P, I⟩ cid args sigs coins d configBuf hd hr hv hi he]
    rfl
  · simp only [ne_eq, Slice_eq_iff]
    exact hids
  · intro oid
    rw [ContractConfig_spawn_eq X cdb oid cid args sigs coins d configBuf hd hr hv hi he]

theorem ContractConfig_keys_distinct_iff_witness :
    (ContractConfig sampleExternals emptyView
        ⟨⟨sampleID, OneNonce⟩, .Spawn (go "config") sampleSpawnArgs, sampleSigs⟩ []).sc.map
        (fun sc => (sc.StateAction, sc.ObjectID)) =
      [(.Create, GenesisReferenceID), (.Create, ⟨sampleID, OneNonce⟩),
        (.Create, ⟨sampleID, OneNonce⟩)] ∧
    ((GenesisReferenceID ≠ ⟨sampleID, OneNonce⟩ ∧
        GenesisReferenceID ≠ ⟨sampleID, OneNonce⟩ ∧
        (⟨sampleID, OneNonce⟩ : ObjectID) ≠ ⟨sampleID, OneNonce⟩) ↔
      (OneNonce ≠ OneNonce ∧ (⟨sampleID, OneNonce⟩ : ObjectID) ≠ ⟨ZeroDarc, ZeroNonce⟩)) ∧
    ((GenesisReferenceID.Slice ≠ (ObjectID.mk sampleID OneNonce).Slice ∧
        GenesisReferenceID.Slice ≠ (ObjectID.mk sampleID OneNonce).Slice ∧
        (ObjectID.mk sampleID OneNonce).Slice ≠ (ObjectID.mk sampleID OneNonce).Slice) ↔
      (OneNonce ≠ OneNonce ∧ (⟨sampleID, OneNonce⟩ : ObjectID) ≠ ⟨ZeroDarc, ZeroNonce⟩)) ∧
    (∀ oid, (ContractConfig sampleExternals emptyView
        ⟨oid, .Spawn (go "config") sampleSpawnArgs, sampleSigs⟩ []).err = none) :=
  ContractConfig_keys_distinct_iff sampleExternals emptyView sampleID OneNonce
    (go "config") sampleSpawnArgs sampleSigs [] (by decide)

end Omniledger
